import Mathlib

/-!
Verification of the monitoring core of dev-services-manager.

The development shallowly embeds the two core components of the repository:
the status poller of src/events.rs (EventManager::check_service_changes) and
the metrics aggregator of src/services.rs (get_service_metrics together with
its helpers find_service_name, is_service_installed, check_service_status,
check_service_enabled, get_service_uptime, get_service_status_internal).

External effects (systemctl invocations, /proc and cgroup file reads, pgrep,
ps, lsof, the sqlite data source) are modelled as a capability record OsEnv
holding the raw textual outputs those commands and files produce; the Rust
string processing applied to these outputs is embedded faithfully over lists
of characters so that every definition is executable by the kernel.
Rust u32/u64 arithmetic is modelled with Nat (the claims under study do not
involve wrap-around of 64-bit byte counters, and debug builds of the source
abort rather than wrap); f32 values (the cpu percentage column of ps) are
modelled with exact rationals.
-/

attribute [local semireducible] Rat.add Rat.mul Rat.inv Rat.sub

deriving instance DecidableEq for Except

/-! ### Character-list models of the Rust `str` primitives -/

/-- Rust str::starts_with, over lists of characters. -/
def startsWithL : List Char → List Char → Bool
  | _, [] => true
  | [], _ :: _ => false
  | c :: cs, p :: ps => c == p && startsWithL cs ps

/-- Rust str::ends_with, over lists of characters. -/
def endsWithL (l p : List Char) : Bool :=
  startsWithL l.reverse p.reverse

/-- Does the pattern occur as a contiguous substring (Rust str::contains)? -/
def containsSubstrL : List Char → List Char → Bool
  | [], pat => pat.isEmpty
  | c :: cs, pat => startsWithL (c :: cs) pat || containsSubstrL cs pat

/-- Recursion core of the replace model; the fuel bounds the number of
characters still to be consumed, so the recursion is structural and the
function evaluates inside the kernel. -/
def replaceFuel (pat rep : List Char) : Nat → List Char → List Char
  | _, [] => []
  | 0, l => l
  | fuel + 1, c :: cs =>
    if startsWithL (c :: cs) pat && !pat.isEmpty then
      rep ++ replaceFuel pat rep fuel (cs.drop (pat.length - 1))
    else
      c :: replaceFuel pat rep fuel cs

/-- Rust str::replace: every non-overlapping occurrence of the pattern is
replaced, scanning left to right.  The source only ever replaces non-empty
literal patterns; for an empty pattern this model returns the input. -/
def replaceL (pat rep l : List Char) : List Char :=
  replaceFuel pat rep l.length l

/-- ASCII whitespace recognizer used by the trim / split models (the source
only ever feeds ASCII command output to these functions). -/
def isWsp (c : Char) : Bool :=
  c == ' ' || c == '\t' || c == '\n' || c == '\r'

/-- Rust str::trim, over lists of characters. -/
def trimL (l : List Char) : List Char :=
  ((l.dropWhile isWsp).reverse.dropWhile isWsp).reverse

/-- Split at every character satisfying the predicate, keeping empty pieces
(the model underlying both the line splitter and split_whitespace). -/
def splitOnCharPred (p : Char → Bool) : List Char → List (List Char)
  | [] => [[]]
  | c :: cs =>
    let r := splitOnCharPred p cs
    if p c then [] :: r
    else
      match r with
      | [] => [[c]]
      | w :: ws => (c :: w) :: ws

/-- Rust str::lines: split on newline, strip one trailing carriage return per
line, and do not yield a final empty line for a trailing newline. -/
def rustLinesL (l : List Char) : List (List Char) :=
  let parts := splitOnCharPred (fun c => c == '\n') l
  let parts := if parts.getLast? = some [] then parts.dropLast else parts
  parts.map (fun ln => if endsWithL ln ['\r'] then ln.dropLast else ln)

/-- Rust str::split_whitespace: maximal non-empty runs between whitespace. -/
def splitWhitespaceL (l : List Char) : List (List Char) :=
  (splitOnCharPred isWsp l).filter (fun w => !w.isEmpty)

/-! String-typed wrappers used by the embedded source functions. -/

def strStartsWith (s p : String) : Bool := startsWithL s.toList p.toList

def strEndsWith (s p : String) : Bool := endsWithL s.toList p.toList

def strContains (s pat : String) : Bool := containsSubstrL s.toList pat.toList

def strReplace (s pat rep : String) : String :=
  (replaceL pat.toList rep.toList s.toList).asString

def strTrim (s : String) : String := (trimL s.toList).asString

def strLines (s : String) : List String := (rustLinesL s.toList).map List.asString

def strSplitWs (s : String) : List String :=
  (splitWhitespaceL s.toList).map List.asString

/-- Rust str::to_lowercase restricted to ASCII (service names in the source
are ASCII command-line names). -/
def strToLower (s : String) : String := (s.toList.map Char.toLower).asString

/-! ### Models of the Rust numeric parsers -/

/-- Value of a list of decimal digit characters. -/
def digitsVal (l : List Char) : Nat :=
  l.foldl (fun acc c => acc * 10 + (c.toNat - '0'.toNat)) 0

/-- Rust str::parse for an unsigned integer of the given bit width: an
optional leading plus sign, then one or more ASCII digits, rejecting
values outside the type range. -/
def parseUnsigned (bits : Nat) (s : String) : Option Nat :=
  let cs := s.toList
  let cs := match cs with
    | '+' :: rest => rest
    | rest => rest
  if !cs.isEmpty && cs.all Char.isDigit then
    let v := digitsVal cs
    if v < 2 ^ bits then some v else none
  else none

def parseU32 : String → Option Nat := parseUnsigned 32

def parseU64 : String → Option Nat := parseUnsigned 64

/-- Rust str::parse::<f32> restricted to the plain decimal literals that the
ps pcpu column produces (optional sign, digits, optional fractional part);
exact rational arithmetic stands in for IEEE binary32 rounding. -/
def parseF32 (s : String) : Option ℚ :=
  let cs := s.toList
  let signAndRest : ℚ × List Char :=
    match cs with
    | '-' :: rest => (-1, rest)
    | '+' :: rest => (1, rest)
    | rest => (1, rest)
  let sign := signAndRest.1
  let body := signAndRest.2
  match body.splitOn '.' with
  | [d] =>
    if !d.isEmpty && d.all Char.isDigit then some (sign * digitsVal d) else none
  | [d, f] =>
    if !(d.isEmpty && f.isEmpty) && d.all Char.isDigit && f.all Char.isDigit then
      some (sign * ((digitsVal d : ℚ) + (digitsVal f : ℚ) / (10 : ℚ) ^ f.length))
    else none
  | _ => none

/-! ### Data model (src/services.rs, src/events.rs, src/database.rs) -/

/-- services.rs: enum ServiceStatus. -/
inductive ServiceStatus where
  | Running
  | Stopped
  | Failed
  | Unknown
deriving DecidableEq, Repr

/-- The string format("{:?}") produces for a ServiceStatus value (the derived
Debug representation used by the event constructors in events.rs). -/
def statusDebug : ServiceStatus → String
  | ServiceStatus.Running => "Running"
  | ServiceStatus.Stopped => "Stopped"
  | ServiceStatus.Failed => "Failed"
  | ServiceStatus.Unknown => "Unknown"

/-- services.rs: struct Service.  last_started is always None in the source
(its DateTime type is modelled by String, never inspected). -/
structure Service where
  name : String
  service_name : String
  status : ServiceStatus
  enabled : Bool
  uptime : Option String
  last_started : Option String
  description : String
deriving DecidableEq

/-- services.rs: struct SystemMetrics.  u32/u64 counters are modelled by Nat;
the f32 cpu percentage by an exact rational; the DateTime timestamp by the
String the caller supplies for the observation instant. -/
structure SystemMetrics where
  service_name : String
  cpu_usage : ℚ
  memory_usage : Nat
  memory_total : Nat
  network_in : Nat
  network_out : Nat
  disk_read : Nat
  disk_write : Nat
  process_count : Nat
  open_files : Nat
  timestamp : String
deriving DecidableEq

/-- events.rs: enum ServiceEvent (all five variants of the source enum; the
poll cycle only ever constructs the first three). -/
inductive ServiceEvent where
  | StatusChanged (service_name old_status new_status timestamp : String)
  | ServiceAdded (service_name status timestamp : String)
  | ServiceRemoved (service_name timestamp : String)
  | ServicesRefreshed (count : Nat) (timestamp : String)
  | DatabaseUpdated (operation service_name timestamp : String)
deriving DecidableEq, Repr

/-- events.rs: struct ServiceStatusInfo, the per-service entry of the
last_known_statuses table. -/
structure ServiceStatusInfo where
  name : String
  status : ServiceStatus
  enabled : Bool
  last_check : String
deriving DecidableEq, Repr

/-- database.rs: the columns of a tracked_services row that the poll cycle
reads (name is UNIQUE in the schema; display_name, description, category and
the timestamps are never consulted by events.rs). -/
structure TrackedService where
  name : String
  enabled : Bool
deriving DecidableEq, Repr

/-! ### Capability record for the OS facing effects

Each field holds the raw textual result of one external command invocation or
file read performed by services.rs.  A None (or Except.error) value models the
corresponding io::Result::Err; invalid-UTF-8 stdout, which the source treats
exactly like a missing value, is folded into the same None. -/

structure OsEnv where
  /-- stdout of systemctl list-unit-files NAME (is_service_installed). -/
  listUnitFiles : String → Option String
  /-- stdout of systemctl is-active NAME; error is a failed spawn
  (check_service_status propagates it with the ? operator). -/
  isActive : String → Except String String
  /-- exit success of systemctl is-enabled NAME; None is a failed spawn
  (check_service_enabled maps it to false). -/
  isEnabledOk : String → Option Bool
  /-- stdout of systemctl show NAME -p ActiveEnterTimestamp --value
  (get_service_uptime). -/
  showTimestamp : String → Option String
  /-- exit success and stdout of systemctl show NAME --property=Description
  --value (get_service_info_from_systemd). -/
  showDescription : String → Option (Bool × String)
  /-- stdout of systemctl show --property=MainPID NAME; Except.error is a
  failed spawn, which get_service_metrics propagates as a hard error, while
  Except.ok none is invalid-UTF-8 stdout, which it silently skips. -/
  mainPid : String → Except String (Option String)
  /-- stdout of systemctl show --property=ControlGroup NAME; None covers both
  a failed spawn and invalid UTF-8 (both silently skipped). -/
  showCgroup : String → Option String
  /-- std::fs::read_to_string by absolute path (cgroup.procs files,
  /proc/PID/net/dev, /proc/PID/io, /proc/meminfo). -/
  readFile : String → Option String
  /-- stdout of pgrep -f NAME. -/
  pgrep : String → Option String
  /-- stdout of ps -p PID -o pcpu,rss,nlwp. -/
  ps : Nat → Option String
  /-- stdout of lsof -p PID. -/
  lsof : Nat → Option String

/-! ### services.rs: status helpers -/

/-- services.rs is_service_installed: the service counts as installed when
the list-unit-files output mentions it and does not report zero matches. -/
def is_service_installed (env : OsEnv) (service_name : String) : Bool :=
  match env.listUnitFiles service_name with
  | some stdout =>
      strContains stdout service_name && !(strContains stdout "0 unit files listed")
  | none => false

/-- services.rs find_service_name: append ".service" unless already present,
then require the unit to be installed. -/
def find_service_name (env : OsEnv) (service_name : String) : Except String String :=
  let systemd_service :=
    if strEndsWith service_name ".service" then service_name
    else service_name ++ ".service"
  if is_service_installed env systemd_service then
    Except.ok systemd_service
  else
    Except.error ("Service \u0027" ++ service_name ++ "\u0027 not found in system")

/-- services.rs check_service_status: map the stdout of systemctl is-active
onto the status enumeration; any unrecognized output is Unknown. -/
def check_service_status (env : OsEnv) (service_name : String) :
    Except String ServiceStatus :=
  match env.isActive service_name with
  | Except.error e => Except.error e
  | Except.ok stdout =>
      if stdout = "active\n" then Except.ok ServiceStatus.Running
      else if stdout = "inactive\n" then Except.ok ServiceStatus.Stopped
      else if stdout = "failed\n" then Except.ok ServiceStatus.Failed
      else Except.ok ServiceStatus.Unknown

/-- services.rs check_service_enabled: exit-status success of systemctl
is-enabled, false when the command cannot be run. -/
def check_service_enabled (env : OsEnv) (service_name : String) : Bool :=
  match env.isEnabledOk service_name with
  | some success => success
  | none => false

/-- services.rs get_service_uptime. -/
def get_service_uptime (env : OsEnv) (service_name : String) : Option String :=
  match env.showTimestamp service_name with
  | none => none
  | some stdout =>
      if strTrim stdout = "" ∨ strTrim stdout = "n/a" then none
      else some (strTrim stdout)

/-- services.rs get_service_info_from_systemd. -/
def get_service_info_from_systemd (env : OsEnv) (service_name : String) :
    Option String :=
  match env.showDescription service_name with
  | none => none
  | some (success, stdout) =>
      if success then
        let description := strTrim stdout
        if description ≠ "" ∧ description ≠ "n/a" then some description else none
      else none

/-- services.rs generate_service_description: systemd description first, then
the pattern classification over the lowercased name. -/
def generate_service_description (env : OsEnv) (service_name : String) : String :=
  match get_service_info_from_systemd env (service_name ++ ".service") with
  | some systemd_desc => systemd_desc
  | none =>
    let n := strToLower service_name
    if strContains n "db" || strContains n "sql" || strContains n "mysql" ||
        strContains n "postgres" then "Database service"
    else if strContains n "web" || strContains n "http" || strContains n "nginx" ||
        strContains n "apache" then "Web server"
    else if strContains n "cache" || strContains n "redis" ||
        strContains n "memcache" then "Cache service"
    else if strContains n "mq" || strContains n "queue" || strContains n "kafka" ||
        strContains n "rabbit" then "Message queue service"
    else if strContains n "monitor" || strContains n "metric" ||
        strContains n "prometheus" || strContains n "grafana" then "Monitoring service"
    else if strContains n "backup" || strContains n "sync" ||
        strContains n "rsync" then "Backup service"
    else if strContains n "vpn" || strContains n "wireguard" ||
        strContains n "openvpn" then "VPN service"
    else if strContains n "dns" || strContains n "bind" ||
        strContains n "unbound" then "DNS service"
    else if strContains n "dhcp" || strContains n "network" then "Network service"
    else if strContains n "mail" || strContains n "smtp" || strContains n "imap" ||
        strContains n "pop" then "Mail service"
    else if strContains n "ftp" || strContains n "sftp" ||
        strContains n "file" then "File transfer service"
    else if strContains n "print" || strContains n "cups" then "Printing service"
    else if strContains n "bluetooth" || strContains n "audio" ||
        strContains n "pulse" then "Audio/Bluetooth service"
    else if strContains n "ssh" || strContains n "telnet" then "Remote access service"
    else if strContains n "cron" || strContains n "at" ||
        strContains n "timer" then "Scheduling service"
    else if strContains n "log" || strContains n "syslog" ||
        strContains n "journal" then "Logging service"
    else if strContains n "time" || strContains n "ntp" ||
        strContains n "chrony" then "Time synchronization service"
    else if strContains n "firewall" || strContains n "iptables" ||
        strContains n "ufw" then "Firewall service"
    else if strContains n "backup" || strContains n "restore" then "Backup service"
    else if strContains n "update" || strContains n "upgrade" ||
        strContains n "apt" then "Package management service"
    else "System service: " ++ service_name

/-- services.rs get_service_status_internal: resolve the unit name, query its
state (propagating a spawn failure with a prefixed message), then assemble
the Service value; its name field is always the caller-supplied name. -/
def get_service_status_internal (env : OsEnv) (service_name : String) :
    Except String Service :=
  match find_service_name env service_name with
  | Except.error e => Except.error e
  | Except.ok systemd_service =>
    match check_service_status env systemd_service with
    | Except.error e => Except.error ("Failed to check status: " ++ e)
    | Except.ok status =>
        Except.ok
          ⟨service_name, systemd_service, status,
           check_service_enabled env systemd_service,
           get_service_uptime env systemd_service, none,
           generate_service_description env service_name⟩

/-! ### events.rs: the poll cycle of EventManager::check_service_changes -/

/-- One entry pushed onto current_statuses (events.rs lines 121-141): the
query result on success, or a placeholder with Unknown status and
enabled=false when the status query fails. -/
def statusEntry (env : OsEnv) (timestamp : String)
    (tracked_service : TrackedService) : ServiceStatusInfo :=
  match get_service_status_internal env tracked_service.name with
  | Except.ok service => ⟨service.name, service.status, service.enabled, timestamp⟩
  | Except.error _ => ⟨tracked_service.name, ServiceStatus.Unknown, false, timestamp⟩

/-- events.rs lines 114-142: filter the tracked set to enabled entries and
query each one, collecting the current-cycle snapshot. -/
def buildCurrentStatuses (env : OsEnv) (tracked_services : List TrackedService)
    (timestamp : String) : List ServiceStatusInfo :=
  (tracked_services.filter (fun ts => ts.enabled)).map (statusEntry env timestamp)

/-- events.rs lines 149-185, body of the loop over current_statuses: a
StatusChanged event when the name is known with a different status, no event
when the status is unchanged, a ServiceAdded event when the name is new. -/
def changeEventsFor (last_statuses : List ServiceStatusInfo) (timestamp : String)
    (current : ServiceStatusInfo) : List ServiceEvent :=
  match last_statuses.find? (fun s => s.name == current.name) with
  | some last =>
      if last.status ≠ current.status then
        [ServiceEvent.StatusChanged current.name (statusDebug last.status)
          (statusDebug current.status) timestamp]
      else []
  | none =>
      [ServiceEvent.ServiceAdded current.name (statusDebug current.status) timestamp]

/-- events.rs lines 188-203: a ServiceRemoved event for every retained entry
whose name no longer occurs in the current snapshot. -/
def removedEvents (last_statuses current_statuses : List ServiceStatusInfo)
    (timestamp : String) : List ServiceEvent :=
  (last_statuses.filter
      (fun last => !(current_statuses.any (fun s => s.name == last.name)))).map
    (fun last => ServiceEvent.ServiceRemoved last.name timestamp)

/-- The full event sequence emitted by one comparison pass, in emission
order: the interleaved StatusChanged/ServiceAdded events of the loop over
current_statuses, then the ServiceRemoved events. -/
def diffEvents (last_statuses current_statuses : List ServiceStatusInfo)
    (timestamp : String) : List ServiceEvent :=
  current_statuses.flatMap (changeEventsFor last_statuses timestamp) ++
    removedEvents last_statuses current_statuses timestamp

/-- events.rs check_service_changes as a state transformer: given the result
of the database fetch and the retained table, it either fails (before any
emission or mutation) or returns the emitted events together with the new
retained table, which the source installs with a single assignment at the
end of the cycle. -/
def check_service_changes (env : OsEnv)
    (fetched : Except String (List TrackedService)) (timestamp : String)
    (last_statuses : List ServiceStatusInfo) :
    Except String (List ServiceEvent × List ServiceStatusInfo) :=
  match fetched with
  | Except.error e => Except.error e
  | Except.ok tracked_services =>
    let current_statuses := buildCurrentStatuses env tracked_services timestamp
    Except.ok (diffEvents last_statuses current_statuses timestamp, current_statuses)

/-- One tick of the monitoring loop (events.rs lines 73-83): a failing cycle
is logged and leaves the retained table untouched, a successful cycle
replaces it. -/
def monitorStep (env : OsEnv) (fetched : Except String (List TrackedService))
    (timestamp : String) (last_statuses : List ServiceStatusInfo) :
    List ServiceEvent × List ServiceStatusInfo :=
  match check_service_changes env fetched timestamp last_statuses with
  | Except.ok r => r
  | Except.error _ => ([], last_statuses)

/-- The service name an event refers to (ServicesRefreshed carries none; the
empty string stands in, and the poll cycle never constructs that variant). -/
def eventName : ServiceEvent → String
  | ServiceEvent.StatusChanged service_name _ _ _ => service_name
  | ServiceEvent.ServiceAdded service_name _ _ => service_name
  | ServiceEvent.ServiceRemoved service_name _ => service_name
  | ServiceEvent.ServicesRefreshed _ _ => ""
  | ServiceEvent.DatabaseUpdated _ service_name _ => service_name

/-! ### services.rs: get_service_metrics -/

/-- services.rs lines 883-893: the MainPID= lines of the systemctl output,
parsed as u32 and kept when positive. -/
def parseMainPids (stdout : String) : List Nat :=
  (strLines stdout).foldl
    (fun acc line =>
      if strStartsWith line "MainPID=" then
        match parseU32 (strReplace line "MainPID=" "") with
        | some pid => if 0 < pid then acc ++ [pid] else acc
        | none => acc
      else acc)
    []

/-- services.rs lines 907-915: fold the lines of a cgroup.procs file into the
accumulated pid list, keeping positive pids not already present. -/
def addProcsContent (acc : List Nat) (procs_content : String) : List Nat :=
  (strLines procs_content).foldl
    (fun a pid_line =>
      match parseU32 (strTrim pid_line) with
      | some pid => if 0 < pid ∧ pid ∉ a then a ++ [pid] else a
      | none => a)
    acc

/-- services.rs lines 901-918: one line of the systemctl ControlGroup output;
a non-empty, non-root group path leads to a cgroup.procs read. -/
def addCgroupLinePids (env : OsEnv) (acc : List Nat) (line : String) : List Nat :=
  if strStartsWith line "ControlGroup=" then
    let cgroup_path := strReplace line "ControlGroup=" ""
    if cgroup_path ≠ "" ∧ cgroup_path ≠ "/" then
      match env.readFile ("/sys/fs/cgroup" ++ cgroup_path ++ "/cgroup.procs") with
      | some procs_content => addProcsContent acc procs_content
      | none => acc
    else acc
  else acc

/-- services.rs lines 896-920: the control-group supplementation pass. -/
def cgroupPids (env : OsEnv) (systemd_service : String) (pids : List Nat) :
    List Nat :=
  match env.showCgroup systemd_service with
  | none => pids
  | some stdout => (strLines stdout).foldl (addCgroupLinePids env) pids

/-- services.rs lines 928-936: pgrep output lines parsed as u32, positive
pids appended without a membership check. -/
def parsePgrepPids (stdout : String) (acc : List Nat) : List Nat :=
  (strLines stdout).foldl
    (fun a pid_line =>
      match parseU32 (strTrim pid_line) with
      | some pid => if 0 < pid then a ++ [pid] else a
      | none => a)
    acc

/-- services.rs lines 922-938: the name-pattern fallback, entered only when
the pid set is still empty. -/
def pgrepPids (env : OsEnv) (service_name : String) (pids : List Nat) : List Nat :=
  if pids.isEmpty then
    match env.pgrep service_name with
    | some stdout => parsePgrepPids stdout pids
    | none => pids
  else pids

/-- services.rs lines 874-938: the three-stage pid discovery.  A failed spawn
of the MainPID query is the only error (propagated with a prefixed message);
invalid-UTF-8 stdout merely skips the primary-pid stage. -/
def discoverPids (env : OsEnv) (service_name systemd_service : String) :
    Except String (List Nat) :=
  match env.mainPid systemd_service with
  | Except.error e => Except.error ("Failed to get service PID: " ++ e)
  | Except.ok stdoutOpt =>
    let pids0 := match stdoutOpt with
      | some pid_str => parseMainPids pid_str
      | none => []
    Except.ok (pgrepPids env service_name (cgroupPids env systemd_service pids0))

/-- services.rs lines 943-958: cpu percentage, resident memory (rss KB
scaled to bytes) and thread count parsed from the second line of the ps
output; any missing or unparsable piece contributes zero. -/
def psRead (env : OsEnv) (pid : Nat) : ℚ × Nat × Nat :=
  match env.ps pid with
  | none => (0, 0, 0)
  | some stdout =>
    let lines := strLines stdout
    if 1 < lines.length then
      let fields := strSplitWs (lines.getD 1 "")
      if 3 ≤ fields.length then
        ((parseF32 (fields.getD 0 "")).getD 0,
         (parseU64 (fields.getD 1 "")).getD 0 * 1024,
         (parseU32 (fields.getD 2 "")).getD 0)
      else (0, 0, 0)
    else (0, 0, 0)

/-- services.rs lines 961-968: line count of the lsof output minus the header
line, with saturating subtraction; a failed command contributes zero. -/
def lsofCount (env : OsEnv) (pid : Nat) : Nat :=
  match env.lsof pid with
  | none => 0
  | some stdout => (strLines stdout).length - 1

/-- services.rs lines 971-980: receive/transmit byte columns of
/proc/PID/net/dev, skipping the two header lines and every loopback row. -/
def netRead (env : OsEnv) (pid : Nat) : Nat × Nat :=
  match env.readFile ("/proc/" ++ toString pid ++ "/net/dev") with
  | none => (0, 0)
  | some content =>
    ((strLines content).drop 2).foldl
      (fun acc line =>
        let fields := strSplitWs line
        if 10 ≤ fields.length ∧ ¬ strStartsWith (fields.getD 0 "") "lo:" then
          (acc.1 + (parseU64 (fields.getD 1 "")).getD 0,
           acc.2 + (parseU64 (fields.getD 9 "")).getD 0)
        else acc)
      (0, 0)

/-- services.rs lines 983-992: read_bytes/write_bytes lines of /proc/PID/io,
matched by prefix; an unreadable file contributes zero. -/
def ioRead (env : OsEnv) (pid : Nat) : Nat × Nat :=
  match env.readFile ("/proc/" ++ toString pid ++ "/io") with
  | none => (0, 0)
  | some content =>
    (strLines content).foldl
      (fun acc line =>
        if strStartsWith line "read_bytes: " then
          (acc.1 + (parseU64 (strReplace line "read_bytes: " "")).getD 0, acc.2)
        else if strStartsWith line "write_bytes: " then
          (acc.1, acc.2 + (parseU64 (strReplace line "write_bytes: " "")).getD 0)
        else acc)
      (0, 0)

/-- services.rs lines 996-1008: the MemTotal line of /proc/meminfo, scaled
from KB to bytes; the loop keeps scanning when a line fails to parse and
stops at the first success. -/
def memTotalLines : List String → Nat
  | [] => 0
  | line :: rest =>
    if strStartsWith line "MemTotal:" then
      match (strSplitWs line).get? 1 with
      | some kb_str =>
        match parseU64 kb_str with
        | some kb => kb * 1024
        | none => memTotalLines rest
      | none => memTotalLines rest
    else memTotalLines rest

/-- System memory total, zero when /proc/meminfo is unreadable. -/
def memTotalOf (env : OsEnv) : Nat :=
  match env.readFile "/proc/meminfo" with
  | none => 0
  | some meminfo => memTotalLines (strLines meminfo)

/-- The eight mutable accumulators of the aggregation loop (services.rs
lines 865-872). -/
structure MetricAcc where
  cpu_usage : ℚ
  memory_usage : Nat
  process_count : Nat
  open_files : Nat
  network_in : Nat
  network_out : Nat
  disk_read : Nat
  disk_write : Nat
deriving DecidableEq

/-- Body of the aggregation loop (services.rs lines 941-993) for one pid:
every accumulator advances by the contribution of its own source. -/
def addPidMetrics (env : OsEnv) (acc : MetricAcc) (pid : Nat) : MetricAcc :=
  let p := psRead env pid
  let o := lsofCount env pid
  let n := netRead env pid
  let d := ioRead env pid
  ⟨acc.cpu_usage + p.1, acc.memory_usage + p.2.1, acc.process_count + p.2.2,
   acc.open_files + o, acc.network_in + n.1, acc.network_out + n.2,
   acc.disk_read + d.1, acc.disk_write + d.2⟩

/-- services.rs get_service_metrics: resolve the unit name (hard failure when
not installed), discover the pid set (hard failure only when the MainPID
query cannot be spawned), aggregate the per-pid sources, read the system
memory total, and assemble the snapshot. -/
def get_service_metrics (env : OsEnv) (now : String) (service_name : String) :
    Except String SystemMetrics :=
  match find_service_name env service_name with
  | Except.error e => Except.error e
  | Except.ok systemd_service =>
    match discoverPids env service_name systemd_service with
    | Except.error e => Except.error e
    | Except.ok all_pids =>
      let acc := all_pids.foldl (addPidMetrics env) ⟨0, 0, 0, 0, 0, 0, 0, 0⟩
      Except.ok
        ⟨service_name, acc.cpu_usage, acc.memory_usage, memTotalOf env,
         acc.network_in, acc.network_out, acc.disk_read, acc.disk_write,
         acc.process_count, acc.open_files, now⟩

/-! ### Auxiliary definitions used by the statements below -/

/-- Rank of an event under the ordering asserted by the specification for one
cycle: StatusChanged before ServiceAppeared before ServiceDisappeared (the
remaining variants are never produced by a cycle). -/
def eventRank : ServiceEvent → Nat
  | ServiceEvent.StatusChanged _ _ _ _ => 0
  | ServiceEvent.ServiceAdded _ _ _ => 1
  | ServiceEvent.ServiceRemoved _ _ => 2
  | ServiceEvent.ServicesRefreshed _ _ => 3
  | ServiceEvent.DatabaseUpdated _ _ _ => 4

/-- Phase of an event inside one cycle: the loop over the current snapshot
(StatusChanged and ServiceAdded interleaved) runs before the loop emitting
ServiceRemoved events. -/
def eventPhase : ServiceEvent → Nat
  | ServiceEvent.ServiceRemoved _ _ => 1
  | _ => 0

/-- The status a cycle records for a tracked name: the queried status on
success, Unknown on a failed query (proof-support abbreviation; the
computation is the one inside statusEntry). -/
def statusOf (env : OsEnv) (name : String) : ServiceStatus :=
  match get_service_status_internal env name with
  | Except.ok service => service.status
  | Except.error _ => ServiceStatus.Unknown

/-! ### Concrete inputs used by counterexamples and witnesses -/

/-- An environment in which every external query fails or yields nothing. -/
def trivEnv : OsEnv :=
  ⟨fun _ => none, fun _ => Except.error "spawn failure", fun _ => none,
   fun _ => none, fun _ => none, fun _ => Except.error "spawn failure",
   fun _ => none, fun _ => none, fun _ => none, fun _ => none, fun _ => none⟩

/-- Unit db.service installed, but the MainPID query command itself fails. -/
def envC2 : OsEnv :=
  ⟨fun u => if u = "db.service" then some "db.service enabled\n" else none,
   fun _ => Except.error "spawn failure", fun _ => none,
   fun _ => none, fun _ => none,
   fun _ => Except.error "boom",
   fun _ => none, fun _ => none, fun _ => none, fun _ => none, fun _ => none⟩

/-- Unit db.service installed, primary pid 5, control group contributing
pids 5 and 6 (5 already present), no pgrep data. -/
def envC3 : OsEnv :=
  ⟨fun u => if u = "db.service" then some "db.service enabled\n" else none,
   fun _ => Except.error "spawn failure", fun _ => none,
   fun _ => none, fun _ => none,
   fun u => if u = "db.service" then Except.ok (some "MainPID=5\n")
            else Except.error "spawn failure",
   fun u => if u = "db.service" then some "ControlGroup=/system.slice/db.service\n"
            else none,
   fun p => if p = "/sys/fs/cgroup/system.slice/db.service/cgroup.procs"
            then some "5\n6\n" else none,
   fun _ => none, fun _ => none, fun _ => none⟩

/-- The end-to-end scenario of the specification: primary-pid lookup yields
nothing (MainPID=0), the control group lists pids 10 and 11, the io
accounting file of pid 10 is unreadable, pid 11 reports 2.0 percent cpu,
rss 1000 and one thread, pid 10 reports all zeroes and one thread. -/
def envC9 : OsEnv :=
  ⟨fun u => if u = "db.service" then some "db.service enabled\n" else none,
   fun _ => Except.error "unused",
   fun _ => none,
   fun _ => none,
   fun _ => none,
   fun u => if u = "db.service" then Except.ok (some "MainPID=0\n")
            else Except.error "unused",
   fun u => if u = "db.service" then some "ControlGroup=/system.slice/db.service\n"
            else none,
   fun p =>
     if p = "/sys/fs/cgroup/system.slice/db.service/cgroup.procs" then some "10\n11\n"
     else if p = "/proc/11/io" then some "read_bytes: 50\nwrite_bytes: 70\n"
     else none,
   fun _ => none,
   fun p =>
     if p = 10 then some "%CPU   RSS NLWP\n 0.0     0    1\n"
     else if p = 11 then some "%CPU   RSS NLWP\n 2.0  1000    1\n"
     else none,
   fun _ => none⟩

/-- Environment exercising the open-file counting: lsof yields no lines for
pid 5 and three lines for pid 7. -/
def envC10 : OsEnv :=
  ⟨fun _ => none, fun _ => Except.error "spawn failure", fun _ => none,
   fun _ => none, fun _ => none, fun _ => Except.error "spawn failure",
   fun _ => none, fun _ => none, fun _ => none, fun _ => none,
   fun p => if p = 5 then some "" else if p = 7 then some "a\nb\nc\n" else none⟩

/-- Prior snapshot with services a and c running. -/
def lastW : List ServiceStatusInfo :=
  [⟨"a", ServiceStatus.Running, true, "t0"⟩, ⟨"c", ServiceStatus.Running, true, "t0"⟩]

/-- Current snapshot: a and c now stopped, b newly observed. -/
def currentW : List ServiceStatusInfo :=
  [⟨"a", ServiceStatus.Stopped, true, "t1"⟩, ⟨"b", ServiceStatus.Running, true, "t1"⟩,
   ⟨"c", ServiceStatus.Stopped, true, "t1"⟩]

/-- Tracked set whose only entry, a, is disabled. -/
def trackedW8 : List TrackedService := [⟨"a", false⟩]

/-- Retained table still holding an entry for a from an earlier cycle. -/
def lastW8 : List ServiceStatusInfo := [⟨"a", ServiceStatus.Running, true, "t0"⟩]

/-! ### Shared lemmas -/

theorem get_service_status_internal_name {env : OsEnv} {n : String} {s : Service}
    (h : get_service_status_internal env n = Except.ok s) : s.name = n := by
  unfold get_service_status_internal at h
  split at h
  · simp at h
  · split at h
    · simp at h
    · simp only [Except.ok.injEq] at h
      rw [← h]

theorem statusEntry_name (env : OsEnv) (ts : String) (t : TrackedService) :
    (statusEntry env ts t).name = t.name := by
  unfold statusEntry
  cases h : get_service_status_internal env t.name with
  | ok s => exact get_service_status_internal_name h
  | error e => rfl

theorem statusEntry_status (env : OsEnv) (ts : String) (t : TrackedService) :
    (statusEntry env ts t).status = statusOf env t.name := by
  unfold statusEntry statusOf
  cases get_service_status_internal env t.name <;> rfl

theorem foldl_preserves {α β : Type} {f : β → α → β} {P : β → Prop}
    (hf : ∀ b a, P b → P (f b a)) :
    ∀ (l : List α) (b : β), P b → P (l.foldl f b) := by
  intro l
  induction l with
  | nil => intro b hb; exact hb
  | cons x xs ih => intro b hb; exact ih (f b x) (hf b x hb)

theorem foldl_extends {α γ : Type} {f : List γ → α → List γ}
    (hf : ∀ b a, ∃ t, f b a = b ++ t) :
    ∀ (l : List α) (b : List γ), ∃ t, l.foldl f b = b ++ t := by
  intro l
  induction l with
  | nil => intro b; exact ⟨[], by simp⟩
  | cons x xs ih =>
    intro b
    obtain ⟨t2, h2⟩ := ih (f b x)
    obtain ⟨t1, h1⟩ := hf b x
    exact ⟨t1 ++ t2, by rw [List.foldl_cons, h2, h1, List.append_assoc]⟩

theorem addProcsContent_step_extends (b : List Nat) (a : String) :
    ∃ t, (match parseU32 (strTrim a) with
          | some pid => if 0 < pid ∧ pid ∉ b then b ++ [pid] else b
          | none => b) = b ++ t := by
  cases h : parseU32 (strTrim a) with
  | none => exact ⟨[], by simp⟩
  | some pid =>
    by_cases hc : 0 < pid ∧ pid ∉ b
    · exact ⟨[pid], by simp [hc]⟩
    · exact ⟨[], by simp [hc]⟩

theorem addProcsContent_extends (acc : List Nat) (content : String) :
    ∃ t, addProcsContent acc content = acc ++ t := by
  unfold addProcsContent
  exact foldl_extends (fun b a => addProcsContent_step_extends b a) _ acc

theorem addProcsContent_nodup {acc : List Nat} (content : String)
    (hacc : acc.Nodup) : (addProcsContent acc content).Nodup := by
  unfold addProcsContent
  refine foldl_preserves ?_ _ acc hacc
  intro b a hb
  cases h : parseU32 (strTrim a) with
  | none => exact hb
  | some pid =>
    by_cases hc : 0 < pid ∧ pid ∉ b
    · simp only [hc, and_self, if_true]
      simp [List.nodup_append, hb, hc.2]
    · simp [hc, hb]

theorem addCgroupLinePids_extends (env : OsEnv) (acc : List Nat) (line : String) :
    ∃ t, addCgroupLinePids env acc line = acc ++ t := by
  unfold addCgroupLinePids
  by_cases h1 : strStartsWith line "ControlGroup=" = true
  · simp only [h1, if_true]
    set q := strReplace line "ControlGroup=" "" with hq
    by_cases h2 : q ≠ "" ∧ q ≠ "/"
    · rw [if_pos h2]
      cases env.readFile ("/sys/fs/cgroup" ++ q ++ "/cgroup.procs") with
      | some procs_content => exact addProcsContent_extends _ _
      | none => exact ⟨[], by simp⟩
    · rw [if_neg h2]
      exact ⟨[], by simp⟩
  · exact ⟨[], by simp [h1]⟩

theorem addCgroupLinePids_nodup (env : OsEnv) {acc : List Nat} (line : String)
    (hacc : acc.Nodup) : (addCgroupLinePids env acc line).Nodup := by
  unfold addCgroupLinePids
  by_cases h1 : strStartsWith line "ControlGroup=" = true
  · simp only [h1, if_true]
    set q := strReplace line "ControlGroup=" "" with hq
    by_cases h2 : q ≠ "" ∧ q ≠ "/"
    · rw [if_pos h2]
      cases env.readFile ("/sys/fs/cgroup" ++ q ++ "/cgroup.procs") with
      | some procs_content => exact addProcsContent_nodup _ hacc
      | none => exact hacc
    · rw [if_neg h2]
      exact hacc
  · simp [h1, hacc]

theorem cgroupPids_extends (env : OsEnv) (u : String) (pids : List Nat) :
    ∃ t, cgroupPids env u pids = pids ++ t := by
  unfold cgroupPids
  cases env.showCgroup u with
  | none => exact ⟨[], by simp⟩
  | some stdout => exact foldl_extends (fun b a => addCgroupLinePids_extends env b a) _ pids

theorem cgroupPids_nodup (env : OsEnv) (u : String) {pids : List Nat}
    (h : pids.Nodup) : (cgroupPids env u pids).Nodup := by
  unfold cgroupPids
  cases env.showCgroup u with
  | none => exact h
  | some stdout =>
    exact foldl_preserves (fun b a hb => addCgroupLinePids_nodup env a hb) _ pids h

theorem pgrepPids_of_ne_nil (env : OsEnv) (sn : String) {pids : List Nat}
    (h : pids ≠ []) : pgrepPids env sn pids = pids := by
  unfold pgrepPids
  rw [if_neg]
  simpa using h

theorem mainPidStep_pos (b : List Nat) (a : String) (hb : ∀ p ∈ b, 0 < p) :
    ∀ p ∈ (if strStartsWith a "MainPID=" = true then
             match parseU32 (strReplace a "MainPID=" "") with
             | some pid => if 0 < pid then b ++ [pid] else b
             | none => b
           else b), 0 < p := by
  by_cases h1 : strStartsWith a "MainPID=" = true
  · simp only [h1, if_true]
    cases h : parseU32 (strReplace a "MainPID=" "") with
    | none => exact hb
    | some pid =>
      by_cases hc : 0 < pid
      · simp only [hc, if_true]
        intro p hp
        rcases List.mem_append.mp hp with h1 | h1
        · exact hb p h1
        · rw [List.mem_singleton.mp h1]; exact hc
      · simp only [hc, if_false]; exact hb
  · simp only [h1, if_false]; exact hb

theorem parseMainPids_pos (out : String) : ∀ p ∈ parseMainPids out, 0 < p := by
  unfold parseMainPids
  exact @foldl_preserves String (List Nat) _ (fun b => ∀ p ∈ b, 0 < p)
    mainPidStep_pos (strLines out) [] (fun p hp => absurd hp (List.not_mem_nil p))

theorem pgrepPids_nil (env : OsEnv) (sn : String) :
    pgrepPids env sn [] =
      (match env.pgrep sn with
       | some stdout => parsePgrepPids stdout []
       | none => []) := by
  unfold pgrepPids
  simp

/-- C3: process discovery accumulates one de-duplicated ordered set: the
positive primary pids are added first, control-group member pids extend the
list without replacing or duplicating earlier entries, the name-pattern
search contributes only when the set is still empty after the first two
strategies, and an empty final set yields a snapshot whose metric fields and
process count are all zero rather than an error.  The two Nodup hypotheses
record that the primary-pid query reports each pid once and that pgrep lists
distinct pids, as the underlying tools guarantee. -/
theorem discovery_layering (env : OsEnv) (service_name systemd_service out : String)
    (hmain : env.mainPid systemd_service = Except.ok (some out))
    (hn1 : (parseMainPids out).Nodup)
    (hn2 : ∀ s, env.pgrep service_name = some s → (parsePgrepPids s []).Nodup) :
    (∀ p ∈ parseMainPids out, 0 < p) ∧
    (∃ extra, discoverPids env service_name systemd_service =
        Except.ok (parseMainPids out ++ extra)) ∧
    (∀ pids, discoverPids env service_name systemd_service = Except.ok pids →
        pids.Nodup) ∧
    (cgroupPids env systemd_service (parseMainPids out) ≠ [] →
        discoverPids env service_name systemd_service =
          Except.ok (cgroupPids env systemd_service (parseMainPids out))) ∧
    (∀ now, find_service_name env service_name = Except.ok systemd_service →
        discoverPids env service_name systemd_service = Except.ok [] →
        get_service_metrics env now service_name =
          Except.ok ⟨service_name, 0, 0, memTotalOf env, 0, 0, 0, 0, 0, 0, now⟩) := by
  have hdisc : discoverPids env service_name systemd_service =
      Except.ok (pgrepPids env service_name
        (cgroupPids env systemd_service (parseMainPids out))) := by
    unfold discoverPids
    rw [hmain]
  obtain ⟨t1, h1⟩ := cgroupPids_extends env systemd_service (parseMainPids out)
  refine ⟨parseMainPids_pos out, ?_, ?_, ?_, ?_⟩
  · by_cases hnil : cgroupPids env systemd_service (parseMainPids out) = []
    · have hmain0 : parseMainPids out = [] := by
        rcases List.append_eq_nil.mp (h1 ▸ hnil) with ⟨h0, _⟩
        exact h0
      rw [hdisc, hnil, hmain0]
      cases hp : env.pgrep service_name with
      | none => exact ⟨[], by rw [pgrepPids_nil, hp]; rfl⟩
      | some s => exact ⟨parsePgrepPids s [], by rw [pgrepPids_nil, hp]; rfl⟩
    · rw [hdisc, pgrepPids_of_ne_nil env service_name hnil, h1]
      exact ⟨t1, rfl⟩
  · intro pids hpids
    rw [hdisc] at hpids
    have hpids' : pgrepPids env service_name
        (cgroupPids env systemd_service (parseMainPids out)) = pids :=
      (Except.ok.injEq _ _).mp hpids
    by_cases hnil : cgroupPids env systemd_service (parseMainPids out) = []
    · rw [hnil, pgrepPids_nil] at hpids'
      cases hp : env.pgrep service_name with
      | none => rw [hp] at hpids'; rw [← hpids']; exact List.nodup_nil
      | some s => rw [hp] at hpids'; rw [← hpids']; exact hn2 s hp
    · rw [pgrepPids_of_ne_nil env service_name hnil] at hpids'
      rw [← hpids']
      exact cgroupPids_nodup env systemd_service hn1
  · intro hnil
    rw [hdisc, pgrepPids_of_ne_nil env service_name hnil]
  · intro now hfind hd0
    unfold get_service_metrics
    rw [hfind]
    simp only [hd0]
    rfl

theorem discovery_layering_witness :
    (∃ extra, discoverPids envC3 "db" "db.service" =
        Except.ok (parseMainPids "MainPID=5\n" ++ extra)) ∧
    (∀ pids, discoverPids envC3 "db" "db.service" = Except.ok pids → pids.Nodup) :=
  ⟨(discovery_layering envC3 "db" "db.service" "MainPID=5\n" (by decide) (by decide)
      (fun s h => Option.noConfusion h)).2.1,
   (discovery_layering envC3 "db" "db.service" "MainPID=5\n" (by decide) (by decide)
      (fun s h => Option.noConfusion h)).2.2.1⟩

theorem foldl_addPidMetrics (env : OsEnv) (pids : List Nat) (acc : MetricAcc) :
    pids.foldl (addPidMetrics env) acc =
      ⟨acc.cpu_usage + (pids.map (fun p => (psRead env p).1)).sum,
       acc.memory_usage + (pids.map (fun p => (psRead env p).2.1)).sum,
       acc.process_count + (pids.map (fun p => (psRead env p).2.2)).sum,
       acc.open_files + (pids.map (fun p => lsofCount env p)).sum,
       acc.network_in + (pids.map (fun p => (netRead env p).1)).sum,
       acc.network_out + (pids.map (fun p => (netRead env p).2)).sum,
       acc.disk_read + (pids.map (fun p => (ioRead env p).1)).sum,
       acc.disk_write + (pids.map (fun p => (ioRead env p).2)).sum⟩ := by
  induction pids generalizing acc with
  | nil => simp
  | cons p ps ih =>
    rw [List.foldl_cons, ih]
    simp [addPidMetrics, add_assoc]

/-- C4: for the discovered pid set, every numeric field of the snapshot is
the pointwise sum of the per-process reads of its source, and a source that
is missing for a process contributes exactly zero for that process without
failing the call. -/
theorem metrics_pointwise_sum (env : OsEnv) (now service_name u : String)
    (pids : List Nat)
    (hfind : find_service_name env service_name = Except.ok u)
    (hdisc : discoverPids env service_name u = Except.ok pids) :
    ∃ m, get_service_metrics env now service_name = Except.ok m ∧
      m.cpu_usage = (pids.map (fun p => (psRead env p).1)).sum ∧
      m.memory_usage = (pids.map (fun p => (psRead env p).2.1)).sum ∧
      m.process_count = (pids.map (fun p => (psRead env p).2.2)).sum ∧
      m.open_files = (pids.map (fun p => lsofCount env p)).sum ∧
      m.network_in = (pids.map (fun p => (netRead env p).1)).sum ∧
      m.network_out = (pids.map (fun p => (netRead env p).2)).sum ∧
      m.disk_read = (pids.map (fun p => (ioRead env p).1)).sum ∧
      m.disk_write = (pids.map (fun p => (ioRead env p).2)).sum ∧
      (∀ p, env.ps p = none → psRead env p = (0, 0, 0)) ∧
      (∀ p, env.lsof p = none → lsofCount env p = 0) ∧
      (∀ p, env.readFile ("/proc/" ++ toString p ++ "/net/dev") = none →
        netRead env p = (0, 0)) ∧
      (∀ p, env.readFile ("/proc/" ++ toString p ++ "/io") = none →
        ioRead env p = (0, 0)) := by
  have hfold := foldl_addPidMetrics env pids ⟨0, 0, 0, 0, 0, 0, 0, 0⟩
  unfold get_service_metrics
  rw [hfind]
  simp only [hdisc]
  refine ⟨_, rfl, ?_, ?_, ?_, ?_, ?_, ?_, ?_, ?_, ?_, ?_, ?_, ?_⟩
  · rw [hfold]; simp
  · rw [hfold]; simp
  · rw [hfold]; simp
  · rw [hfold]; simp
  · rw [hfold]; simp
  · rw [hfold]; simp
  · rw [hfold]; simp
  · rw [hfold]; simp
  · intro p h; simp [psRead, h]
  · intro p h; simp [lsofCount, h]
  · intro p h; simp [netRead, h]
  · intro p h; simp [ioRead, h]

theorem metrics_pointwise_sum_witness :
    ∃ m, get_service_metrics envC9 "t0" "db" = Except.ok m ∧
      m.cpu_usage = ([10, 11].map (fun p => (psRead envC9 p).1)).sum ∧
      m.memory_usage = ([10, 11].map (fun p => (psRead envC9 p).2.1)).sum ∧
      m.process_count = ([10, 11].map (fun p => (psRead envC9 p).2.2)).sum ∧
      m.open_files = ([10, 11].map (fun p => lsofCount envC9 p)).sum ∧
      m.network_in = ([10, 11].map (fun p => (netRead envC9 p).1)).sum ∧
      m.network_out = ([10, 11].map (fun p => (netRead envC9 p).2)).sum ∧
      m.disk_read = ([10, 11].map (fun p => (ioRead envC9 p).1)).sum ∧
      m.disk_write = ([10, 11].map (fun p => (ioRead envC9 p).2)).sum ∧
      (∀ p, envC9.ps p = none → psRead envC9 p = (0, 0, 0)) ∧
      (∀ p, envC9.lsof p = none → lsofCount envC9 p = 0) ∧
      (∀ p, envC9.readFile ("/proc/" ++ toString p ++ "/net/dev") = none →
        netRead envC9 p = (0, 0)) ∧
      (∀ p, envC9.readFile ("/proc/" ++ toString p ++ "/io") = none →
        ioRead envC9 p = (0, 0)) :=
  metrics_pointwise_sum envC9 "t0" "db" "db.service" [10, 11] (by decide) (by decide)

/-- C2 counterexample: the unit db.service resolves (find_service_name
succeeds), yet getMetrics returns an error because the MainPID query command
itself fails to execute — so resolution failure is not the only hard failure
mode, contradicting the claimed equivalence. -/
theorem metrics_error_despite_resolution :
    find_service_name envC2 "db" = Except.ok "db.service" ∧
    get_service_metrics envC2 "t0" "db" =
      Except.error "Failed to get service PID: boom" := by decide

/-- C2 (amended): getMetrics returns an error exactly when the service name
does not resolve to an installed unit, or when the name resolves but the
primary-pid query command itself cannot be executed; every other per-process
or per-metric failure still yields a snapshot. -/
theorem get_service_metrics_error_iff (env : OsEnv) (now service_name : String) :
    (∃ e, get_service_metrics env now service_name = Except.error e) ↔
      ((∃ e, find_service_name env service_name = Except.error e) ∨
       (∃ u e, find_service_name env service_name = Except.ok u ∧
          env.mainPid u = Except.error e)) := by
  unfold get_service_metrics discoverPids
  cases hf : find_service_name env service_name with
  | error e => simp [hf]
  | ok u =>
    cases hm : env.mainPid u with
    | error e => simp [hf, hm]
    | ok o => simp [hf, hm]

theorem get_service_metrics_error_iff_witness :
    ∃ e, get_service_metrics envC2 "t0" "db" = Except.error e :=
  (get_service_metrics_error_iff envC2 "t0" "db").mpr
    (Or.inr ⟨"db.service", "boom", by decide, by decide⟩)

/-- C9: the end-to-end scenario — primary-pid lookup yields nothing, the
control group lists pids 10 and 11, the io file of pid 10 is unreadable and
contributes zero, pid 11 reports 2.0 percent cpu — produces a snapshot with
process count 2, cpu 2.0, and the remaining fields exactly what the sources
of pid 11 report. -/
theorem metrics_scenario_db :
    discoverPids envC9 "db" "db.service" = Except.ok [10, 11] ∧
    envC9.readFile "/proc/10/io" = none ∧
    ioRead envC9 10 = (0, 0) ∧
    psRead envC9 11 = (2, 1024000, 1) ∧
    get_service_metrics envC9 "t0" "db" =
      Except.ok ⟨"db", 2, 1024000, 0, 0, 0, 50, 70, 2, 0, "t0"⟩ := by decide

/-- C10: the open-file contribution of a process is the line count of the
file-handle enumeration minus one with saturating subtraction — a failed or
empty enumeration contributes exactly zero, and the header-line subtraction
can never underflow. -/
theorem lsof_open_file_count (env : OsEnv) (pid : Nat) :
    (env.lsof pid = none → lsofCount env pid = 0) ∧
    (∀ s, env.lsof pid = some s → strLines s = [] → lsofCount env pid = 0) ∧
    (∀ s, env.lsof pid = some s →
      lsofCount env pid + 1 = max (strLines s).length 1) := by
  refine ⟨?_, ?_, ?_⟩
  · intro h; simp [lsofCount, h]
  · intro s h hs; simp [lsofCount, h, hs]
  · intro s h
    simp only [lsofCount, h]
    omega

theorem lsof_open_file_count_witness :
    lsofCount envC10 5 = 0 ∧
    lsofCount envC10 7 + 1 = max (strLines "a\nb\nc\n").length 1 :=
  ⟨(lsof_open_file_count envC10 5).2.1 "" (by decide) (by decide),
   (lsof_open_file_count envC10 7).2.2 "a\nb\nc\n" (by decide)⟩

theorem buildCurrent_self_diff (env : OsEnv) (tracked : List TrackedService)
    (ts1 ts2 ts : String) :
    diffEvents (buildCurrentStatuses env tracked ts1)
      (buildCurrentStatuses env tracked ts2) ts = [] := by
  unfold diffEvents buildCurrentStatuses
  refine List.append_eq_nil.mpr ⟨?_, ?_⟩
  · rw [List.flatMap_eq_nil_iff]
    intro c hc
    obtain ⟨t, ht, rfl⟩ := List.mem_map.mp hc
    unfold changeEventsFor
    rw [List.find?_map]
    have hfun : ((fun s => s.name == (statusEntry env ts2 t).name) ∘ statusEntry env ts1)
        = fun u => u.name == t.name := by
      funext u
      simp [Function.comp, statusEntry_name]
    rw [hfun]
    have hex : (List.find? (fun u => u.name == t.name)
        (tracked.filter (fun x => x.enabled))).isSome = true := by
      rw [List.find?_isSome]
      exact ⟨t, ht, by simp⟩
    obtain ⟨t0, hfind⟩ := Option.isSome_iff_exists.mp hex
    have ht0 : t0.name = t.name := by
      have := List.find?_some hfind
      simpa using this
    rw [hfind]
    have hst : (statusEntry env ts1 t0).status = (statusEntry env ts2 t).status := by
      rw [statusEntry_status, statusEntry_status, ht0]
    simp [hst]
  · unfold removedEvents
    rw [List.map_eq_nil_iff, List.filter_eq_nil_iff]
    intro l hl
    obtain ⟨t, ht, rfl⟩ := List.mem_map.mp hl
    simp only [Bool.not_eq_true', Bool.not_eq_false]
    rw [List.any_eq_true]
    exact ⟨statusEntry env ts2 t, List.mem_map_of_mem _ ht,
      by simp [statusEntry_name]⟩

/-- C5: running the cycle twice with an unchanged tracked set and unchanged
query results produces zero events on the second run, because the retained
collection is replaced by the current one at the end of every cycle. -/
theorem second_cycle_idempotent (env : OsEnv) (tracked : List TrackedService)
    (ts1 ts2 : String) (last : List ServiceStatusInfo) :
    (monitorStep env (Except.ok tracked) ts2
      (monitorStep env (Except.ok tracked) ts1 last).2).1 = [] := by
  simp only [monitorStep, check_service_changes]
  exact buildCurrent_self_diff env tracked ts1 ts2 ts2

/-- C6: when fetching the tracked set fails, the cycle emits no events and
leaves the retained last-known-status table exactly as it was, so the next
cycle diffs against the same prior snapshot. -/
theorem fetch_failure_preserves_state (env : OsEnv) (e ts : String)
    (last : List ServiceStatusInfo) :
    check_service_changes env (Except.error e) ts last = Except.error e ∧
    monitorStep env (Except.error e) ts last = ([], last) :=
  ⟨rfl, rfl⟩

theorem eventName_changeEventsFor (last : List ServiceStatusInfo) (ts : String)
    (c : ServiceStatusInfo) : ∀ e ∈ changeEventsFor last ts c, eventName e = c.name := by
  unfold changeEventsFor
  cases last.find? (fun s => s.name == c.name) with
  | some l =>
    dsimp only
    by_cases h : l.status ≠ c.status
    · rw [if_pos h]
      intro e he
      rw [List.mem_singleton.mp he]
      rfl
    · rw [if_neg h]
      intro e he
      cases he
  | none =>
    intro e he
    rw [List.mem_singleton.mp he]
    rfl

theorem changeEventsFor_filter_self {last : List ServiceStatusInfo} {ts : String}
    {c : ServiceStatusInfo} {n : String} (h : c.name = n) :
    (changeEventsFor last ts c).filter (fun e => eventName e == n) =
      changeEventsFor last ts c := by
  rw [List.filter_eq_self]
  intro e he
  rw [eventName_changeEventsFor last ts c e he, h]
  exact beq_self_eq_true n

theorem changeEventsFor_filter_ne {last : List ServiceStatusInfo} {ts : String}
    {c : ServiceStatusInfo} {n : String} (h : c.name ≠ n) :
    (changeEventsFor last ts c).filter (fun e => eventName e == n) = [] := by
  rw [List.filter_eq_nil_iff]
  intro e he
  rw [eventName_changeEventsFor last ts c e he]
  simp [h]

theorem flatMap_changeEvents_filter_ne (last : List ServiceStatusInfo) (ts : String)
    (current : List ServiceStatusInfo) {n : String}
    (h : ∀ c ∈ current, c.name ≠ n) :
    (current.flatMap (changeEventsFor last ts)).filter
      (fun e => eventName e == n) = [] := by
  rw [List.filter_flatMap, List.flatMap_eq_nil_iff]
  intro c hc
  exact changeEventsFor_filter_ne (h c hc)

theorem flatMap_changeEvents_filter (last : List ServiceStatusInfo) (ts : String) :
    ∀ (current : List ServiceStatusInfo),
      (current.map ServiceStatusInfo.name).Nodup →
      ∀ c ∈ current,
      (current.flatMap (changeEventsFor last ts)).filter
        (fun e => eventName e == c.name) = changeEventsFor last ts c := by
  intro current
  induction current with
  | nil => intro _ c hc; cases hc
  | cons x xs ih =>
    intro hnd c hc
    rw [List.map_cons, List.nodup_cons] at hnd
    rw [List.flatMap_cons, List.filter_append]
    rcases List.mem_cons.mp hc with rfl | hc'
    · rw [changeEventsFor_filter_self rfl]
      have hnil : (xs.flatMap (changeEventsFor last ts)).filter
          (fun e => eventName e == c.name) = [] := by
        refine flatMap_changeEvents_filter_ne last ts xs ?_
        intro y hy hne
        exact hnd.1 (hne ▸ List.mem_map_of_mem ServiceStatusInfo.name hy)
      rw [hnil, List.append_nil]
    · have hxc : x.name ≠ c.name := by
        intro h
        exact hnd.1 (h ▸ List.mem_map_of_mem ServiceStatusInfo.name hc')
      rw [changeEventsFor_filter_ne hxc, List.nil_append]
      exact ih hnd.2 c hc'

theorem removedEvents_mem (last current : List ServiceStatusInfo) (ts : String) :
    ∀ e ∈ removedEvents last current ts,
      ∃ l ∈ last, e = ServiceEvent.ServiceRemoved l.name ts ∧
        ∀ c ∈ current, c.name ≠ l.name := by
  intro e he
  unfold removedEvents at he
  obtain ⟨l, hl, rfl⟩ := List.mem_map.mp he
  have hl' := List.mem_filter.mp hl
  refine ⟨l, hl'.1, rfl, ?_⟩
  intro c hc hname
  have hfalse : current.any (fun s => s.name == l.name) = false := by
    have := hl'.2
    simpa using this
  have htrue : current.any (fun s => s.name == l.name) = true :=
    List.any_eq_true.mpr ⟨c, hc, by simp [hname]⟩
  rw [hfalse] at htrue
  cases htrue

theorem removedEvents_filter_current (last current : List ServiceStatusInfo)
    (ts : String) {c : ServiceStatusInfo} (hc : c ∈ current) :
    (removedEvents last current ts).filter (fun e => eventName e == c.name) = [] := by
  rw [List.filter_eq_nil_iff]
  intro e he
  obtain ⟨l, _, rfl, hall⟩ := removedEvents_mem last current ts e he
  have := hall c hc
  simp [eventName]
  intro h
  exact this h.symm

theorem filter_nil_of_false {α : Type} {p : α → Bool} {l : List α}
    (h : ∀ a ∈ l, p a = false) : l.filter p = [] :=
  List.filter_eq_nil_iff.mpr (fun a ha => by rw [h a ha]; simp)

theorem removedEvents_filter_prior (last current : List ServiceStatusInfo)
    (ts : String) {l : ServiceStatusInfo}
    (hnd : (last.map ServiceStatusInfo.name).Nodup) (hl : l ∈ last)
    (hno : ∀ c ∈ current, c.name ≠ l.name) :
    (removedEvents last current ts).filter (fun e => eventName e == l.name) =
      [ServiceEvent.ServiceRemoved l.name ts] := by
  unfold removedEvents
  rw [List.filter_map]
  have hq : ∀ x : ServiceStatusInfo,
      ((fun e => eventName e == l.name) ∘ (fun y => ServiceEvent.ServiceRemoved y.name ts)) x
        = (x.name == l.name) := fun x => rfl
  have hrepl : (last.filter
        (fun x => !(current.any (fun s => s.name == x.name)))).filter
        (fun x => x.name == l.name) = [l] := by
    rw [List.filter_filter]
    induction last with
    | nil => cases hl
    | cons y ys ih =>
      rw [List.map_cons, List.nodup_cons] at hnd
      rcases List.mem_cons.mp hl with rfl | hl'
      · rw [List.filter_cons_of_pos, filter_nil_of_false]
        · intro a ha
          have hane : a.name ≠ l.name := by
            intro h
            exact hnd.1 (h ▸ List.mem_map_of_mem ServiceStatusInfo.name ha)
          simp [hane]
        · simp only [beq_self_eq_true, Bool.true_and, Bool.not_eq_true']
          rw [List.any_eq_false]
          intro s hs
          simp [hno s hs]
      · have hyne : y.name ≠ l.name := by
          intro h
          exact hnd.1 (h ▸ List.mem_map_of_mem ServiceStatusInfo.name hl')
        rw [List.filter_cons_of_neg, ih hnd.2 hl']
        simp [hyne]
  rw [funext hq] at *
  rw [hrepl]
  rfl

theorem find?_name_unique {last : List ServiceStatusInfo}
    (hl : (last.map ServiceStatusInfo.name).Nodup) {l : ServiceStatusInfo}
    (hmem : l ∈ last) {n : String} (h : l.name = n) :
    last.find? (fun s => s.name == n) = some l := by
  induction last with
  | nil => cases hmem
  | cons x xs ih =>
    rw [List.map_cons, List.nodup_cons] at hl
    rcases List.mem_cons.mp hmem with rfl | hmem'
    · rw [List.find?_cons_of_pos]
      simp [h]
    · have hxn : ¬(x.name == n) = true := by
        simp only [beq_iff_eq]
        intro hxn
        exact hl.1 (by rw [hxn, ← h]; exact List.mem_map_of_mem _ hmem')
      rw [@List.find?_cons_of_neg ServiceStatusInfo (fun s => s.name == n) x xs hxn]
      exact ih hl.2 hmem'

/-- C1: for snapshot collections with unique names (the at-most-one-entry-
per-name invariant of the data model), the comparison pass emits, per name,
exactly one StatusChanged event carrying the old and new status verbatim
when the name is in both snapshots with differing status, exactly one
ServiceAdded when the name is only in the current snapshot, exactly one
ServiceRemoved when it is only in the prior one, and nothing when it is in
both with equal status — exactness expressed by filtering the emitted
sequence by the name. -/
theorem diff_rules (last current : List ServiceStatusInfo) (ts : String)
    (hlast : (last.map ServiceStatusInfo.name).Nodup)
    (hcur : (current.map ServiceStatusInfo.name).Nodup) :
    (∀ c ∈ current, ∀ l ∈ last, l.name = c.name →
      (l.status ≠ c.status →
        (diffEvents last current ts).filter (fun e => eventName e == c.name) =
          [ServiceEvent.StatusChanged c.name (statusDebug l.status)
            (statusDebug c.status) ts]) ∧
      (l.status = c.status →
        (diffEvents last current ts).filter (fun e => eventName e == c.name) = [])) ∧
    (∀ c ∈ current, (∀ l ∈ last, l.name ≠ c.name) →
      (diffEvents last current ts).filter (fun e => eventName e == c.name) =
        [ServiceEvent.ServiceAdded c.name (statusDebug c.status) ts]) ∧
    (∀ l ∈ last, (∀ c ∈ current, c.name ≠ l.name) →
      (diffEvents last current ts).filter (fun e => eventName e == l.name) =
        [ServiceEvent.ServiceRemoved l.name ts]) := by
  refine ⟨?_, ?_, ?_⟩
  · intro c hc l hl hname
    have hbase : (diffEvents last current ts).filter (fun e => eventName e == c.name)
        = changeEventsFor last ts c := by
      unfold diffEvents
      rw [List.filter_append, flatMap_changeEvents_filter last ts current hcur c hc,
        removedEvents_filter_current last current ts hc, List.append_nil]
    have hfind : last.find? (fun s => s.name == c.name) = some l :=
      find?_name_unique hlast hl hname
    constructor
    · intro hne
      rw [hbase]
      unfold changeEventsFor
      rw [hfind]
      dsimp only
      rw [if_pos hne]
    · intro heq
      rw [hbase]
      unfold changeEventsFor
      rw [hfind]
      dsimp only
      rw [if_neg (by simp [heq])]
  · intro c hc hnone
    have hbase : (diffEvents last current ts).filter (fun e => eventName e == c.name)
        = changeEventsFor last ts c := by
      unfold diffEvents
      rw [List.filter_append, flatMap_changeEvents_filter last ts current hcur c hc,
        removedEvents_filter_current last current ts hc, List.append_nil]
    have hfind : last.find? (fun s => s.name == c.name) = none := by
      rw [List.find?_eq_none]
      intro x hx
      simp [hnone x hx]
    rw [hbase]
    unfold changeEventsFor
    rw [hfind]
  · intro l hl hno
    unfold diffEvents
    rw [List.filter_append, flatMap_changeEvents_filter_ne last ts current hno,
      List.nil_append, removedEvents_filter_prior last current ts hlast hl hno]

theorem diff_rules_witness :
    (diffEvents lastW currentW "t1").filter (fun e => eventName e == "a") =
      [ServiceEvent.StatusChanged "a" "Running" "Stopped" "t1"] :=
  ((diff_rules lastW currentW "t1" (by decide) (by decide)).1
    ⟨"a", ServiceStatus.Stopped, true, "t1"⟩ (by decide)
    ⟨"a", ServiceStatus.Running, true, "t0"⟩ (by decide) rfl).1 (by decide)

/-- C7 counterexample: with prior snapshot (a Running, c Running) and current
snapshot (a Stopped, b new, c Stopped) the cycle emits StatusChanged a,
ServiceAdded b, StatusChanged c — a ServiceAdded event precedes a
StatusChanged event, so the claimed changed-before-appeared ordering fails. -/
theorem diff_order_counterexample :
    ¬ List.Sorted (· ≤ ·) ((diffEvents lastW currentW "t1").map eventRank) := by
  decide

theorem eventPhase_changeEventsFor (last : List ServiceStatusInfo) (ts : String)
    (c : ServiceStatusInfo) : ∀ e ∈ changeEventsFor last ts c, eventPhase e = 0 := by
  unfold changeEventsFor
  cases last.find? (fun s => s.name == c.name) with
  | some l =>
    dsimp only
    by_cases h : l.status ≠ c.status
    · rw [if_pos h]
      intro e he
      rw [List.mem_singleton.mp he]
      rfl
    · rw [if_neg h]
      intro e he
      cases he
  | none =>
    intro e he
    rw [List.mem_singleton.mp he]
    rfl

theorem pairwise_le_of_const {l : List Nat} {k : Nat} (h : ∀ x ∈ l, x = k) :
    List.Pairwise (· ≤ ·) l := by
  induction l with
  | nil => exact List.Pairwise.nil
  | cons a as ih =>
    refine List.Pairwise.cons ?_ (ih (fun x hx => h x (List.mem_cons_of_mem a hx)))
    intro b hb
    rw [h a (List.mem_cons_self a as), h b (List.mem_cons_of_mem a hb)]

/-- C7 (amended): within one cycle every StatusChanged and every ServiceAdded
event is emitted before every ServiceRemoved event (the two phases of the
comparison pass); StatusChanged and ServiceAdded events themselves interleave
in the iteration order of the current snapshot rather than being ordered
against each other. -/
theorem removed_events_last (last current : List ServiceStatusInfo) (ts : String) :
    List.Sorted (· ≤ ·) ((diffEvents last current ts).map eventPhase) := by
  unfold diffEvents
  rw [List.map_append]
  have h1 : ∀ x ∈ (current.flatMap (changeEventsFor last ts)).map eventPhase,
      x = 0 := by
    intro x hx
    obtain ⟨e, he, rfl⟩ := List.mem_map.mp hx
    obtain ⟨c, hc, hec⟩ := List.mem_flatMap.mp he
    exact eventPhase_changeEventsFor last ts c e hec
  have h2 : ∀ x ∈ (removedEvents last current ts).map eventPhase, x = 1 := by
    intro x hx
    obtain ⟨e, he, rfl⟩ := List.mem_map.mp hx
    obtain ⟨l, _, rfl, _⟩ := removedEvents_mem last current ts e he
    rfl
  rw [List.Sorted, List.pairwise_append]
  refine ⟨pairwise_le_of_const h1, pairwise_le_of_const h2, ?_⟩
  intro a ha b hb
  rw [h1 a ha]
  exact Nat.zero_le b

/-- C8 counterexample: the only tracked entry for service a is disabled, yet
the cycle emits an event naming a — a ServiceRemoved — because a was present
in the prior snapshot, contradicting the claim that no event names a
disabled service. -/
theorem disabled_service_event_counterexample :
    (∀ t ∈ trackedW8, t.enabled = false) ∧
    monitorStep trivEnv (Except.ok trackedW8) "t1" lastW8 =
      ([ServiceEvent.ServiceRemoved "a" "t1"], []) := by decide

/-- C8 (amended): a name all of whose tracked entries are disabled never
enters the current snapshot, is never the subject of a status query result,
and receives no StatusChanged or ServiceAdded event; the only event that can
name it is the single ServiceRemoved emitted in the cycle after it was last
present in the retained snapshot, and if it was not present there, no event
names it at all. -/
theorem disabled_service_invisible (env : OsEnv) (tracked : List TrackedService)
    (ts : String) (last : List ServiceStatusInfo) (n : String)
    (hdis : ∀ t ∈ tracked, t.name = n → t.enabled = false) :
    (∀ s ∈ (monitorStep env (Except.ok tracked) ts last).2, s.name ≠ n) ∧
    (∀ e ∈ (monitorStep env (Except.ok tracked) ts last).1, eventName e = n →
      e = ServiceEvent.ServiceRemoved n ts) ∧
    ((∀ l ∈ last, l.name ≠ n) →
      ∀ e ∈ (monitorStep env (Except.ok tracked) ts last).1, eventName e ≠ n) := by
  have hcur : ∀ s ∈ buildCurrentStatuses env tracked ts, s.name ≠ n := by
    intro s hs
    unfold buildCurrentStatuses at hs
    obtain ⟨t, ht, rfl⟩ := List.mem_map.mp hs
    have htf := List.mem_filter.mp ht
    rw [statusEntry_name]
    intro h
    have hfalse := hdis t htf.1 h
    have htrue : t.enabled = true := htf.2
    rw [hfalse] at htrue
    cases htrue
  have hstep : monitorStep env (Except.ok tracked) ts last =
      (diffEvents last (buildCurrentStatuses env tracked ts) ts,
       buildCurrentStatuses env tracked ts) := rfl
  rw [hstep]
  refine ⟨hcur, ?_, ?_⟩
  · intro e he hen
    rcases List.mem_append.mp he with he1 | he2
    · obtain ⟨c, hc, hec⟩ := List.mem_flatMap.mp he1
      rw [eventName_changeEventsFor _ _ _ e hec] at hen
      exact absurd hen (hcur c hc)
    · obtain ⟨l, _, rfl, _⟩ := removedEvents_mem _ _ _ e he2
      rw [show eventName (ServiceEvent.ServiceRemoved l.name ts) = l.name from rfl]
        at hen
      rw [hen]
  · intro hlast e he hen
    rcases List.mem_append.mp he with he1 | he2
    · obtain ⟨c, hc, hec⟩ := List.mem_flatMap.mp he1
      rw [eventName_changeEventsFor _ _ _ e hec] at hen
      exact absurd hen (hcur c hc)
    · obtain ⟨l, hl, rfl, _⟩ := removedEvents_mem _ _ _ e he2
      exact absurd hen (hlast l hl)

theorem disabled_service_invisible_witness :
    eventName (ServiceEvent.ServiceRemoved "a" "t1") ≠ "b" :=
  (disabled_service_invisible trivEnv trackedW8 "t1" lastW8 "b" (by decide)).2.2
    (by decide) (ServiceEvent.ServiceRemoved "a" "t1") (by decide)
